import Mathlib

/-!
Verification of the ReplaySDK client-side session telemetry agent
(`src/index.ts`).  The TypeScript class `ReplaySDK` is shallowly embedded:
its mutable fields become record fields, its methods become pure
state-transition functions, and the single asynchronous suspension point
(the `fetch` inside `sendEvents`) is modelled by passing in the transport
outcome and the events captured during the suspension explicitly.
-/

namespace ReplaySDK

/-! ## DOM model and `sanitizeDOM`

`sanitizeDOM` (index.ts lines 64-90) parses an HTML string into a document,
removes every `script` element, strips every attribute whose name starts
with `on`, blanks the `value` of password/hidden `input`/`textarea`
elements, and reserialises.  We embed the document as a tree of nodes; the
parse/serialise round trip through `DOMParser`/`outerHTML` is abstracted
away by working on the tree directly, with `renderList` standing for
serialisation.  A "document" is the list of top-level nodes, matching
`doc.querySelectorAll` which visits every element at any depth. -/

structure Attr where
  name : String
  value : String
  deriving DecidableEq, Repr

/-- A node of the content tree.  `value` models the `value` property of
form elements (the code assigns `el.value = ''`); it is `""` for
non-form elements. -/
inductive Dom where
  | text (s : String)
  | element (tag : String) (attrs : List Attr) (value : String) (children : List Dom)

/-- First pass of `sanitizeDOM`:
`doc.querySelectorAll('script').forEach(el => el.remove())` —
every element with tag `script`, at any depth, is removed together with
its content. -/
def removeScripts : List Dom → List Dom
  | [] => []
  | Dom.text s :: rest => Dom.text s :: removeScripts rest
  | Dom.element t a v c :: rest =>
      if t = "script" then removeScripts rest
      else Dom.element t a v (removeScripts c) :: removeScripts rest

/-- Second pass of `sanitizeDOM`: for every element, every attribute whose
name starts with `on` is removed (`attr.name.startsWith('on')` →
`el.removeAttribute`). -/
def removeHandlers : List Dom → List Dom
  | [] => []
  | Dom.text s :: rest => Dom.text s :: removeHandlers rest
  | Dom.element t a v c :: rest =>
      Dom.element t (a.filter (fun at_ => !(at_.name.startsWith "on"))) v
        (removeHandlers c) :: removeHandlers rest

/-- `el.type` for a parsed form element: the value of its `type`
attribute. -/
def getType (attrs : List Attr) : String :=
  match attrs.find? (fun a => a.name = "type") with
  | some a => a.value
  | none => ""

/-- Whether the third pass blanks this element: the code selects
`input, textarea` elements and blanks those with
`el.type === 'password' || el.type === 'hidden'`. -/
def isSensitive (tag : String) (attrs : List Attr) : Bool :=
  (tag = "input" || tag = "textarea")
    && (getType attrs = "password" || getType attrs = "hidden")

/-- Third pass of `sanitizeDOM`: sensitive form elements get `value = ''`. -/
def clearSensitive : List Dom → List Dom
  | [] => []
  | Dom.text s :: rest => Dom.text s :: clearSensitive rest
  | Dom.element t a v c :: rest =>
      Dom.element t a (if isSensitive t a then "" else v)
        (clearSensitive c) :: clearSensitive rest

/-- `sanitizeDOM` (index.ts 64-90): the three passes in source order. -/
def sanitizeDOM (doc : List Dom) : List Dom :=
  clearSensitive (removeHandlers (removeScripts doc))

/-- No element in the tree (at any depth) has tag `script`. -/
def noScript : List Dom → Bool
  | [] => true
  | Dom.text _ :: rest => noScript rest
  | Dom.element t _ _ c :: rest =>
      !(t = "script") && noScript c && noScript rest

/-- No element in the tree carries an attribute whose name starts with
`on`. -/
def noOnAttrs : List Dom → Bool
  | [] => true
  | Dom.text _ :: rest => noOnAttrs rest
  | Dom.element _ a _ c :: rest =>
      a.all (fun at_ => !(at_.name.startsWith "on")) && noOnAttrs c && noOnAttrs rest

/-- Every password/hidden form element has an empty `value`. -/
def sensitiveBlank : List Dom → Bool
  | [] => true
  | Dom.text _ :: rest => sensitiveBlank rest
  | Dom.element t a v c :: rest =>
      (if isSensitive t a then v = "" else true) && sensitiveBlank c && sensitiveBlank rest

/-- Serialisation of an attribute list, standing for the attribute part of
`outerHTML`. -/
def renderAttrs (l : List Attr) : String :=
  l.foldl (fun acc a => acc ++ " " ++ a.name ++ "=\x22" ++ a.value ++ "\x22") ""

mutual

/-- Serialisation of one node, standing for `outerHTML`. -/
def renderNode : Dom → String
  | .text s => s
  | .element t a v c =>
      "<" ++ t ++ renderAttrs a ++ " value=\x22" ++ v ++ "\x22>"
        ++ renderList c ++ "</" ++ t ++ ">"

/-- Serialisation of a node list. -/
def renderList : List Dom → String
  | [] => ""
  | d :: rest => renderNode d ++ renderList rest

end

/-! ## Events and SDK state

`EventData` is the record pushed by `captureEvent` (index.ts 1-5, 174-182).
The `data: any` payload is embedded as a structured sum covering the four
payload shapes the class produces. -/

/-- Payloads produced by the four capture sites of the class. -/
inductive Payload where
  | mouseMove (x y : Int)
  | click (x y : Int) (target : String)
  | scroll (scrollX scrollY : Int)
  | domSnapshot (html : String) (viewportWidth viewportHeight : Int) (url : String)
  deriving DecidableEq, Repr

structure EventData where
  type : String
  data : Payload
  timestamp : Int
  deriving DecidableEq, Repr

/-- Configuration (`SDKConfig`, index.ts 7-11).  Fields are `Option` so a
caller omitting a required field (possible for untyped callers) is
representable; `debug` is optional in the interface itself. -/
structure SDKConfig where
  websiteId : Option String
  apiEndpoint : Option String
  debug : Option Bool
  deriving DecidableEq, Repr

/-- The mutable fields of the `ReplaySDK` class (index.ts 13-22).
`sendIntervalActive` models whether the `setInterval` timer is live. -/
structure SDKState where
  events : List EventData
  websiteId : Option String
  sessionId : String
  apiEndpoint : Option String
  debug : Bool
  isRunning : Bool
  sendIntervalActive : Bool
  lastDOMSnapshot : String
  deriving DecidableEq, Repr

/-- `captureEvent` (index.ts 174-182): builds the record and pushes it on
`this.events`.  Note it does not consult `isRunning`. -/
def captureEvent (s : SDKState) (type : String) (data : Payload) (now : Int) : SDKState :=
  { s with events := s.events ++ [⟨type, data, now⟩] }

/-- `startEventSending` (index.ts 165-172): sets `isRunning` and installs
the 1000 ms `setInterval`. -/
def startEventSending (s : SDKState) : SDKState :=
  { s with isRunning := true, sendIntervalActive := true }

/-- `captureInitialState` (index.ts 35-62): captures a `domSnapshot` event
with the sanitised document and a `scroll` event.  It does NOT assign
`this.lastDOMSnapshot`. -/
def captureInitialState (s : SDKState) (rawDoc : List Dom) (vw vh : Int)
    (url : String) (sx sy : Int) (now : Int) : SDKState :=
  let s1 := captureEvent s "domSnapshot"
    (.domSnapshot (renderList (sanitizeDOM rawDoc)) vw vh url) now
  captureEvent s1 "scroll" (.scroll sx sy) now

/-- The constructor (index.ts 24-33): assigns the config fields with no
validation, generates a session id, wires listeners, starts the periodic
send, and captures the initial state.  There is no failure path. -/
def construct (config : SDKConfig) (sessionId : String) (rawDoc : List Dom)
    (vw vh : Int) (url : String) (sx sy : Int) (now : Int) : SDKState :=
  let s0 : SDKState :=
    { events := []
      websiteId := config.websiteId
      sessionId := sessionId
      apiEndpoint := config.apiEndpoint
      debug := config.debug.getD false
      isRunning := false
      sendIntervalActive := false
      lastDOMSnapshot := "" }
  captureInitialState (startEventSending s0) rawDoc vw vh url sx sy now

/-- `stop` (index.ts 218-224): flips `isRunning` off and, when the interval
handle is set, clears it.  It never touches `this.events`. -/
def stop (s : SDKState) : SDKState :=
  { s with isRunning := false, sendIntervalActive := false }

/-- The body of the `setTimeout` callback of `handleDOMMutation`
(index.ts 98-111): recompute the sanitised document, compare with
`lastDOMSnapshot`, and only on a difference capture a `domSnapshot` event
and store the new digest. -/
def handleDOMMutationTimeout (s : SDKState) (rawDoc : List Dom) (vw vh : Int)
    (url : String) (now : Int) : SDKState :=
  let currentDOM := renderList (sanitizeDOM rawDoc)
  if currentDOM ≠ s.lastDOMSnapshot then
    let s1 := captureEvent s "domSnapshot" (.domSnapshot currentDOM vw vh url) now
    { s1 with lastDOMSnapshot := currentDOM }
  else s

/-- The outcome of the `fetch` round trip inside `sendEvents`:
either the promise rejects (network error), or a response arrives with
an `ok` flag and a body that does or does not parse as JSON. -/
inductive FetchOutcome where
  | networkError
  | response (ok : Bool) (jsonOk : Bool)
  deriving DecidableEq, Repr

/-- Result of one `sendEvents` cycle: the state after the cycle, how many
network requests were issued, and the batch the collector received (empty
unless the cycle succeeded end to end). -/
structure SendCycle where
  state : SDKState
  networkCalls : Nat
  delivered : List EventData
  deriving DecidableEq, Repr

/-- `sendEvents` (index.ts 184-216).  The synchronous prefix returns at
once on an empty queue; otherwise it copies the queue, clears it, and
awaits `fetch`.  `during` is the list of events captured while the send
is suspended.  A rejected fetch, a non-ok status (the `throw` on line
206), or a body that fails `response.json()` all land in the `catch`,
which reinstates the batch at the head of the live queue. -/
def sendEvents (s : SDKState) (during : List EventData) (outcome : FetchOutcome) :
    SendCycle :=
  if s.events.isEmpty then ⟨s, 0, []⟩
  else
    let eventsToSend := s.events
    let s1 := { s with events := during }
    match outcome with
    | .networkError => ⟨{ s1 with events := eventsToSend ++ s1.events }, 1, []⟩
    | .response ok jsonOk =>
        if ok && jsonOk then ⟨s1, 1, eventsToSend⟩
        else ⟨{ s1 with events := eventsToSend ++ s1.events }, 1, []⟩

/-! ## Fallible snapshot path

`sanitizeDOM` begins with `new DOMParser().parseFromString(...)`; the spec's
error taxonomy supposes this parse can fail on a malformed content tree.
Neither `sanitizeDOM` nor the `handleDOMMutation` timeout callback contains
a `try`/`catch`, so an exception thrown there escapes the callback.  The
parse attempt's result is passed in as an `Except`. -/

/-- The snapshot cycle with a fallible parse: on `Except.error` the
exception propagates out of the snapshot path (there is no handler in
index.ts 92-112 or 64-90); on `Except.ok` the cycle runs as
`handleDOMMutationTimeout`. -/
def handleDOMMutationTimeoutE (s : SDKState) (parsed : Except String (List Dom))
    (vw vh : Int) (url : String) (now : Int) : Except String SDKState :=
  match parsed with
  | .error e => .error e
  | .ok rawDoc => .ok (handleDOMMutationTimeout s rawDoc vw vh url now)

/-! ## Post-stop behaviour

After `stop`, the only things that can still happen to the state are
capture callbacks (the listeners installed by `initializeEventListeners`
and the mutation observer are never removed) and interval ticks (which do
nothing once the interval is cleared).  `captureEvent` never reads
`isRunning`. -/

inductive PostStep where
  | capture (type : String) (data : Payload) (now : Int)
  | intervalTick (during : List EventData) (outcome : FetchOutcome)

/-- One step after construction: a capture callback appends
unconditionally; the interval callback runs `sendEvents` only while the
interval is installed. -/
def postStep (s : SDKState) : PostStep → SDKState
  | .capture t d n => captureEvent s t d n
  | .intervalTick during outcome =>
      if s.sendIntervalActive then (sendEvents s during outcome).state else s

def runPost (s : SDKState) : List PostStep → SDKState
  | [] => s
  | st :: rest => runPost (postStep s st) rest

/-- The events appended by the capture steps of a step list, in order. -/
def capturedOf : List PostStep → List EventData
  | [] => []
  | .capture t d n :: rest => ⟨t, d, n⟩ :: capturedOf rest
  | .intervalTick _ _ :: rest => capturedOf rest

/-! ## Throttled listeners

`initializeEventListeners` (index.ts 124-163) installs three listeners.
`lastMoveTime` and `lastScrollTime` are closure-local variables initialised
to 0; a mousemove is captured only when `now - lastMoveTime > 50`, a scroll
only when `now - lastScrollTime > 100`, and every click is captured.
Timestamps are `Int` (JS subtraction of `Date.now()` values). -/

inductive Signal where
  | mousemove (now : Int) (x y : Int)
  | click (now : Int) (x y : Int) (target : String)
  | scroll (now : Int) (scrollX scrollY : Int)
  deriving DecidableEq, Repr

structure ListenerState where
  lastMoveTime : Int
  lastScrollTime : Int
  captured : List EventData
  deriving DecidableEq, Repr

/-- The three listener bodies (index.ts 129-160). -/
def handleSignal (s : ListenerState) : Signal → ListenerState
  | .mousemove now x y =>
      if now - s.lastMoveTime > 50 then
        { s with captured := s.captured ++ [⟨"mouseMove", .mouseMove x y, now⟩]
                 lastMoveTime := now }
      else s
  | .click now x y target =>
      { s with captured := s.captured ++ [⟨"click", .click x y target, now⟩] }
  | .scroll now sx sy =>
      if now - s.lastScrollTime > 100 then
        { s with captured := s.captured ++ [⟨"scroll", .scroll sx sy, now⟩]
                 lastScrollTime := now }
      else s

def runSignals (s : ListenerState) : List Signal → ListenerState
  | [] => s
  | sig :: rest => runSignals (handleSignal s sig) rest

/-- Listener state right after `initializeEventListeners`. -/
def initListeners : ListenerState := ⟨0, 0, []⟩

/-- Capture times of the `mouseMove` events, in capture order. -/
def moveTimes (evs : List EventData) : List Int :=
  evs.filterMap (fun e => if e.type = "mouseMove" then some e.timestamp else none)

/-- Capture times of the `scroll` events, in capture order. -/
def scrollTimes (evs : List EventData) : List Int :=
  evs.filterMap (fun e => if e.type = "scroll" then some e.timestamp else none)

/-- Number of captured `click` events. -/
def clickCount (evs : List EventData) : Nat :=
  (evs.filter (fun e => e.type = "click")).length

/-- Number of raw click signals in a signal list. -/
def countClickSignals : List Signal → Nat
  | [] => 0
  | .click _ _ _ _ :: rest => countClickSignals rest + 1
  | .mousemove _ _ _ :: rest => countClickSignals rest
  | .scroll _ _ _ :: rest => countClickSignals rest

/-! ## Flush / send-failure / requeue cycles

For the delivery-order claim the events are abstracted to their capture
sequence numbers.  `queue` is `this.events`; `inflight` is the local
`eventsToSend` of a `sendEvents` cycle while its `fetch` is suspended;
`delivered` is the log the collector has acknowledged.  Cycles run one at
a time (the single suspension point of the design); captures may
interleave anywhere. -/

structure BufState where
  queue : List Nat
  inflight : Option (List Nat)
  delivered : List Nat
  nextId : Nat
  deriving DecidableEq, Repr

inductive BufStep where
  | capture
  | flushSwap
  | sendResolveOk
  | sendResolveFail
  deriving DecidableEq, Repr

/-- One atomic step of the capture/flush/send system.
`capture` is `this.events.push(event)`; `flushSwap` is the synchronous
prefix of `sendEvents` (`eventsToSend = [...this.events]; this.events = []`,
a no-op on an empty queue, and not taken while a cycle is already
suspended); `sendResolveOk` delivers the in-flight batch;
`sendResolveFail` is the catch block
`this.events = [...eventsToSend, ...this.events]`. -/
def stepBuf (s : BufState) : BufStep → BufState
  | .capture => { s with queue := s.queue ++ [s.nextId], nextId := s.nextId + 1 }
  | .flushSwap =>
      match s.inflight with
      | some _ => s
      | none => if s.queue.isEmpty then s else { s with inflight := some s.queue, queue := [] }
  | .sendResolveOk =>
      match s.inflight with
      | some b => { s with delivered := s.delivered ++ b, inflight := none }
      | none => s
  | .sendResolveFail =>
      match s.inflight with
      | some b => { s with queue := b ++ s.queue, inflight := none }
      | none => s

def runBuf (s : BufState) : List BufStep → BufState
  | [] => s
  | st :: rest => runBuf (stepBuf s st) rest

def initBuf : BufState := ⟨[], none, [], 0⟩

/-- Every event the system has seen, in delivered-then-pending order. -/
def history (s : BufState) : List Nat :=
  s.delivered ++ s.inflight.getD [] ++ s.queue

/-- The html payloads of the `domSnapshot` events in a list, in order. -/
def domSnapshotHtmls (evs : List EventData) : List String :=
  evs.filterMap (fun e =>
    match e.data with
    | .domSnapshot h _ _ _ => some h
    | _ => none)

/-- Throttling invariant of the listener state: captured `mouseMove`
(resp. `scroll`) timestamps are pairwise more than 50 ms (resp. 100 ms)
apart, and are bounded by the stored last-capture time. -/
def ThrottleInv (s : ListenerState) : Prop :=
  (moveTimes s.captured).Pairwise (fun a b => 50 < b - a)
  ∧ (∀ a ∈ moveTimes s.captured, a ≤ s.lastMoveTime)
  ∧ (scrollTimes s.captured).Pairwise (fun a b => 100 < b - a)
  ∧ (∀ a ∈ scrollTimes s.captured, a ≤ s.lastScrollTime)

/-- Sample document: a bare `html` element. -/
def doc0 : List Dom := [Dom.element "html" [] "" []]

/-- Sample running state with an empty queue and empty digest. -/
def sample : SDKState :=
  ⟨[], some "w", "sid", some "api", false, true, true, ""⟩

/-- Sample captured click event. -/
def clickEv : EventData := ⟨"click", .click 1 2 "button", 5⟩

/-! ## Lemmas about sanitisation -/

theorem all_filter_self (p : Attr → Bool) (a : List Attr) :
    (a.filter p).all p = true := by
  induction a with
  | nil => rfl
  | cons x xs ih => by_cases h : p x <;> simp [List.filter_cons, h, ih]

theorem noScript_removeScripts (l : List Dom) :
    noScript (removeScripts l) = true := by
  induction l using removeScripts.induct <;>
    simp_all [removeScripts, noScript]

theorem noScript_removeHandlers (l : List Dom) :
    noScript (removeHandlers l) = noScript l := by
  induction l using removeHandlers.induct <;>
    simp_all [removeHandlers, noScript]

theorem noScript_clearSensitive (l : List Dom) :
    noScript (clearSensitive l) = noScript l := by
  induction l using clearSensitive.induct <;>
    simp_all [clearSensitive, noScript]

theorem noOnAttrs_removeHandlers (l : List Dom) :
    noOnAttrs (removeHandlers l) = true := by
  induction l using removeHandlers.induct <;>
    simp_all [removeHandlers, noOnAttrs, all_filter_self]

theorem noOnAttrs_clearSensitive (l : List Dom) :
    noOnAttrs (clearSensitive l) = noOnAttrs l := by
  induction l using clearSensitive.induct <;>
    simp_all [clearSensitive, noOnAttrs]

theorem sensitiveBlank_clearSensitive (l : List Dom) :
    sensitiveBlank (clearSensitive l) = true := by
  induction l using clearSensitive.induct with
  | case1 => simp [clearSensitive, sensitiveBlank]
  | case2 s rest ih => simpa [clearSensitive, sensitiveBlank] using ih
  | case3 t a v c rest ih1 ih2 =>
      by_cases h : isSensitive t a <;>
        simp_all [clearSensitive, sensitiveBlank, h]

/-- C4: for every input document tree, `sanitizeDOM` removes all script
content, removes every attribute whose name begins with `on` from every
element, and blanks the value of every password-type or hidden-type
input field; and the mutation-snapshot path applies it before the dedup
comparison and before enqueue — the only event it may append carries the
sanitised render, which is also the value compared against
`lastDOMSnapshot`. -/
theorem sanitizeDOM_spec :
    ∀ (doc : List Dom) (s : SDKState) (vw vh : Int) (url : String) (now : Int),
    noScript (sanitizeDOM doc) = true
    ∧ noOnAttrs (sanitizeDOM doc) = true
    ∧ sensitiveBlank (sanitizeDOM doc) = true
    ∧ ((handleDOMMutationTimeout s doc vw vh url now).events = s.events
        ∨ (handleDOMMutationTimeout s doc vw vh url now).events
            = s.events
              ++ [⟨"domSnapshot", .domSnapshot (renderList (sanitizeDOM doc)) vw vh url, now⟩]) := by
  intro doc s vw vh url now
  refine ⟨?_, ?_, ?_, ?_⟩
  · rw [sanitizeDOM, noScript_clearSensitive, noScript_removeHandlers,
      noScript_removeScripts]
  · rw [sanitizeDOM, noOnAttrs_clearSensitive, noOnAttrs_removeHandlers]
  · exact sensitiveBlank_clearSensitive _
  · by_cases h : renderList (sanitizeDOM doc) = s.lastDOMSnapshot
    · left
      simp [handleDOMMutationTimeout, h]
    · right
      simp [handleDOMMutationTimeout, h, captureEvent]

/-! ## Delivery-order invariant -/

theorem history_step (s : BufState) (st : BufStep)
    (h : history s = List.range s.nextId) :
    history (stepBuf s st) = List.range (stepBuf s st).nextId := by
  cases st with
  | capture =>
      simp only [stepBuf, history] at h ⊢
      rw [List.range_succ, ← h]
      simp
  | flushSwap =>
      cases hin : s.inflight with
      | some b => simpa [stepBuf, hin] using h
      | none =>
          by_cases hq : s.queue.isEmpty
          · simpa [stepBuf, hin, hq] using h
          · simp only [stepBuf, hin, hq, Bool.false_eq_true, if_false, history] at h ⊢
            simpa [hin] using h
  | sendResolveOk =>
      cases hin : s.inflight with
      | some b =>
          simp only [stepBuf, hin, history] at h ⊢
          rw [← h]
          simp [hin]
      | none => simpa [stepBuf, hin] using h
  | sendResolveFail =>
      cases hin : s.inflight with
      | some b =>
          simp only [stepBuf, hin, history] at h ⊢
          rw [← h]
          simp [hin]
      | none => simpa [stepBuf, hin] using h

theorem history_runBuf (steps : List BufStep) :
    ∀ s : BufState, history s = List.range s.nextId →
      history (runBuf s steps) = List.range (runBuf s steps).nextId := by
  induction steps with
  | nil => intro s h; simpa [runBuf] using h
  | cons st rest ih =>
      intro s h
      simpa [runBuf] using ih (stepBuf s st) (history_step s st h)

/-- C1: across any sequence of captures interleaved with
flush/send-failure/requeue cycles, the delivered log followed by the
in-flight batch followed by the live queue is exactly the capture history
in capture order (no loss, no duplication, no reordering); when nothing is
pending the delivered log is the full capture history; and a failed send
reinserts its batch at the head of the queue, ahead of everything captured
during the attempt. -/
theorem capture_order_preserved :
    ∀ (steps : List BufStep) (s : BufState) (b : List Nat),
    history (runBuf initBuf steps) = List.range (runBuf initBuf steps).nextId
    ∧ ((runBuf initBuf steps).inflight = none → (runBuf initBuf steps).queue = [] →
        (runBuf initBuf steps).delivered = List.range (runBuf initBuf steps).nextId)
    ∧ (s.inflight = some b →
        stepBuf s .sendResolveFail = { s with queue := b ++ s.queue, inflight := none }) := by
  intro steps s b
  have hrun := history_runBuf steps initBuf (by simp [history, initBuf])
  refine ⟨hrun, ?_, ?_⟩
  · intro h1 h2
    rw [history, h1, h2] at hrun
    simpa using hrun
  · intro h
    simp [stepBuf, h]

/-- Witness for C1: a concrete trace — two captures, a flush, a capture
during the failed send, the requeue, a second flush, a successful send —
delivers `[0, 1, 2]`, and a concrete failed send puts its batch back at
the head. -/
theorem capture_order_preserved_witness :
    (runBuf initBuf
        [BufStep.capture, BufStep.capture, BufStep.flushSwap, BufStep.capture,
         BufStep.sendResolveFail, BufStep.flushSwap, BufStep.sendResolveOk]).delivered
      = List.range 3
    ∧ stepBuf ⟨[9], some [3, 4], [], 10⟩ BufStep.sendResolveFail
      = ⟨[3, 4, 9], none, [], 10⟩ := by
  have h := capture_order_preserved
    [BufStep.capture, BufStep.capture, BufStep.flushSwap, BufStep.capture,
     BufStep.sendResolveFail, BufStep.flushSwap, BufStep.sendResolveOk]
    ⟨[9], some [3, 4], [], 10⟩ [3, 4]
  exact ⟨h.2.1 (by decide) (by decide), h.2.2 rfl⟩

/-! ## `sendEvents` per-cycle facts -/

/-- C3: a flush cycle on an empty queue issues no network request and
leaves the state unchanged; any flush cycle issues at most one network
request. -/
theorem sendEvents_empty_cheap_noop :
    ∀ (s : SDKState) (during : List EventData) (outcome : FetchOutcome),
    (s.events = [] → sendEvents s during outcome = ⟨s, 0, []⟩)
    ∧ (sendEvents s during outcome).networkCalls ≤ 1 := by
  intro s during outcome
  constructor
  · intro h
    simp [sendEvents, h]
  · by_cases h : s.events.isEmpty
    · simp [sendEvents, h]
    · cases outcome with
      | networkError => simp [sendEvents, h]
      | response ok jsonOk =>
          simp only [sendEvents, h, Bool.false_eq_true, if_false]
          split <;> simp

/-- Witness for C3: a concrete flush of the empty queue is an unchanged
state with zero network calls. -/
theorem sendEvents_empty_cheap_noop_witness :
    sendEvents sample [] FetchOutcome.networkError = ⟨sample, 0, []⟩ :=
  (sendEvents_empty_cheap_noop sample [] FetchOutcome.networkError).1 rfl

/-- C9: a send whose response has a success status but a body that fails
JSON parsing lands in the catch block: nothing is delivered, the batch is
reinserted at the head of whatever was captured during the attempt, and
the next successful flush re-delivers it (duplicate delivery). -/
theorem sendEvents_bad_json_requeues :
    ∀ (s : SDKState) (during d2 : List EventData),
    s.events ≠ [] →
    sendEvents s during (.response true false)
      = ⟨{ s with events := s.events ++ during }, 1, []⟩
    ∧ (sendEvents { s with events := s.events ++ during } d2
        (.response true true)).delivered = s.events ++ during := by
  intro s during d2 h
  have hne : s.events.isEmpty = false := by
    simpa [List.isEmpty_iff] using h
  constructor
  · simp [sendEvents, hne]
  · have hne2 : (s.events ++ during).isEmpty = false := by
      simp [List.isEmpty_iff, h]
    simp [sendEvents, hne2]

/-- Witness for C9: a concrete queue of one click event, an ok response
with an unparseable body: the event is requeued and then re-delivered. -/
theorem sendEvents_bad_json_requeues_witness :
    sendEvents { sample with events := [clickEv] } [] (.response true false)
      = ⟨{ { sample with events := [clickEv] } with
            events := [clickEv] ++ ([] : List EventData) }, 1, []⟩
    ∧ (sendEvents { { sample with events := [clickEv] } with
          events := [clickEv] ++ ([] : List EventData) } []
        (.response true true)).delivered = [clickEv] ++ ([] : List EventData) :=
  sendEvents_bad_json_requeues { sample with events := [clickEv] } [] []
    (by simp [sample])

/-! ## Lifecycle -/

/-- C8: `stop` clears the periodic flush timer and sets the running flag
to false, changes nothing else — in particular it does not flush or touch
the pending event queue — and is idempotent, so calling it again (or when
no timer is active) leaves the state unchanged. -/
theorem stop_spec :
    ∀ s : SDKState,
    stop s = { s with isRunning := false, sendIntervalActive := false }
    ∧ (stop s).events = s.events
    ∧ (stop s).isRunning = false
    ∧ (stop s).sendIntervalActive = false
    ∧ stop (stop s) = stop s := by
  intro s
  exact ⟨rfl, rfl, rfl, rfl, rfl⟩

/-- C6 counterexample: constructing with both required fields missing
does not fail — `construct` is a total function with no failure path —
and the session starts anyway (`isRunning = true`, the periodic send is
scheduled and the initial events are captured). -/
theorem construct_missing_config_starts :
    (construct ⟨none, none, none⟩ "sid" doc0 1 1 "u" 0 0 0).isRunning = true
    ∧ (construct ⟨none, none, none⟩ "sid" doc0 1 1 "u" 0 0 0).sendIntervalActive = true
    ∧ (construct ⟨none, none, none⟩ "sid" doc0 1 1 "u" 0 0 0).websiteId = none := by
  exact ⟨rfl, rfl, rfl⟩

/-- C6 amended: the constructor performs no validation of the
configuration; for every configuration — including one missing
`websiteId` or `apiEndpoint` — construction succeeds, stores the fields
as given, and the session starts immediately. -/
theorem construct_never_validates :
    ∀ (config : SDKConfig) (sessionId : String) (rawDoc : List Dom)
      (vw vh : Int) (url : String) (sx sy now : Int),
    (construct config sessionId rawDoc vw vh url sx sy now).isRunning = true
    ∧ (construct config sessionId rawDoc vw vh url sx sy now).sendIntervalActive = true
    ∧ (construct config sessionId rawDoc vw vh url sx sy now).websiteId = config.websiteId
    ∧ (construct config sessionId rawDoc vw vh url sx sy now).apiEndpoint = config.apiEndpoint
    ∧ (construct config sessionId rawDoc vw vh url sx sy now).events.length = 2 := by
  intro config sessionId rawDoc vw vh url sx sy now
  refine ⟨rfl, rfl, rfl, rfl, ?_⟩
  simp [construct, captureInitialState, captureEvent, startEventSending]

/-- C7: the snapshot path contains no error handler: when the parse step
of a snapshot cycle fails, the error propagates out of the mutation
timeout callback (no event is enqueued, but nothing catches the error
locally). -/
theorem snapshot_error_propagates :
    ∀ (s : SDKState) (vw vh : Int) (url : String) (now : Int) (e : String),
    handleDOMMutationTimeoutE s (.error e) vw vh url now = .error e := by
  intro s vw vh url now e
  rfl

/-! ## Snapshot deduplication -/

/-- C2 counterexample: `captureInitialState` enqueues the session-start
snapshot without updating `lastDOMSnapshot` (it stays `""`), so the first
mutation-driven computation — producing byte-identical sanitised output —
is enqueued again: two consecutive identical computations yield two
`domSnapshot` events, not one. -/
theorem snapshot_dedup_counterexample :
    (construct ⟨some "w", some "api", none⟩ "sid" doc0 1 1 "u" 0 0 0).lastDOMSnapshot = ""
    ∧ domSnapshotHtmls (handleDOMMutationTimeout
        (construct ⟨some "w", some "api", none⟩ "sid" doc0 1 1 "u" 0 0 0)
        doc0 1 1 "u" 5).events
      = [renderList (sanitizeDOM doc0), renderList (sanitizeDOM doc0)] := by
  have hne : renderList (sanitizeDOM doc0) ≠ "" := by
    simp [doc0, sanitizeDOM, removeScripts, removeHandlers, clearSensitive,
      isSensitive, getType, renderList, renderNode, renderAttrs]
  refine ⟨rfl, ?_⟩
  simp [construct, captureInitialState, captureEvent, startEventSending,
    handleDOMMutationTimeout, domSnapshotHtmls, hne]

/-- C2 amended: for mutation-driven snapshot computations the dedup
invariant holds — a `domSnapshot` event is enqueued only when the newly
computed sanitised representation differs from `lastDOMSnapshot`, the
digest is updated synchronously on emission, and a second computation
with identical output is suppressed.  The session-start snapshot, by
contrast, is enqueued unconditionally and does not update the digest. -/
theorem handleDOMMutation_dedup :
    ∀ (s : SDKState) (rawDoc : List Dom) (vw vh : Int) (url : String) (now now2 : Int),
    handleDOMMutationTimeout (handleDOMMutationTimeout s rawDoc vw vh url now)
        rawDoc vw vh url now2
      = handleDOMMutationTimeout s rawDoc vw vh url now
    ∧ (renderList (sanitizeDOM rawDoc) = s.lastDOMSnapshot →
        handleDOMMutationTimeout s rawDoc vw vh url now = s)
    ∧ (renderList (sanitizeDOM rawDoc) ≠ s.lastDOMSnapshot →
        (handleDOMMutationTimeout s rawDoc vw vh url now).events
          = s.events
            ++ [⟨"domSnapshot", .domSnapshot (renderList (sanitizeDOM rawDoc)) vw vh url, now⟩]
        ∧ (handleDOMMutationTimeout s rawDoc vw vh url now).lastDOMSnapshot
          = renderList (sanitizeDOM rawDoc)) := by
  intro s rawDoc vw vh url now now2
  by_cases h : renderList (sanitizeDOM rawDoc) = s.lastDOMSnapshot
  · have hs : handleDOMMutationTimeout s rawDoc vw vh url now = s := by
      simp [handleDOMMutationTimeout, h]
    refine ⟨?_, fun _ => hs, fun hc => absurd h hc⟩
    rw [hs]
    simp [handleDOMMutationTimeout, h]
  · have h1 : handleDOMMutationTimeout s rawDoc vw vh url now
        = { s with
            events := s.events
              ++ [⟨"domSnapshot", .domSnapshot (renderList (sanitizeDOM rawDoc)) vw vh url, now⟩]
            lastDOMSnapshot := renderList (sanitizeDOM rawDoc) } := by
      simp [handleDOMMutationTimeout, captureEvent, h]
    refine ⟨?_, fun hc => absurd hc h, fun _ => ⟨by rw [h1], by rw [h1]⟩⟩
    rw [h1]
    simp [handleDOMMutationTimeout]

/-- Witness for C2 (amended): on a fresh state whose digest differs from
the sanitised sample document, the first mutation computation enqueues the
event and stores the digest, and a second identical computation changes
nothing. -/
theorem handleDOMMutation_dedup_witness :
    renderList (sanitizeDOM doc0) ≠ sample.lastDOMSnapshot
    ∧ (handleDOMMutationTimeout sample doc0 1 1 "u" 3).events
        = sample.events
          ++ [⟨"domSnapshot", .domSnapshot (renderList (sanitizeDOM doc0)) 1 1 "u", 3⟩]
    ∧ (handleDOMMutationTimeout sample doc0 1 1 "u" 3).lastDOMSnapshot
        = renderList (sanitizeDOM doc0)
    ∧ handleDOMMutationTimeout (handleDOMMutationTimeout sample doc0 1 1 "u" 3)
        doc0 1 1 "u" 4
      = handleDOMMutationTimeout sample doc0 1 1 "u" 3 := by
  have hne : renderList (sanitizeDOM doc0) ≠ sample.lastDOMSnapshot := by
    simp [sample, doc0, sanitizeDOM, removeScripts, removeHandlers, clearSensitive,
      isSensitive, getType, renderList, renderNode, renderAttrs]
  have h := handleDOMMutation_dedup sample doc0 1 1 "u" 3 4
  exact ⟨hne, (h.2.2 hne).1, (h.2.2 hne).2, h.1⟩

/-! ## Throttling -/

theorem moveTimes_append (l1 l2 : List EventData) :
    moveTimes (l1 ++ l2) = moveTimes l1 ++ moveTimes l2 := by
  simp [moveTimes, List.filterMap_append]

theorem scrollTimes_append (l1 l2 : List EventData) :
    scrollTimes (l1 ++ l2) = scrollTimes l1 ++ scrollTimes l2 := by
  simp [scrollTimes, List.filterMap_append]

theorem clickCount_append (l1 l2 : List EventData) :
    clickCount (l1 ++ l2) = clickCount l1 + clickCount l2 := by
  simp [clickCount, List.filter_append]

theorem throttleInv_step (s : ListenerState) (sig : Signal)
    (h : ThrottleInv s) : ThrottleInv (handleSignal s sig) := by
  obtain ⟨h1, h2, h3, h4⟩ := h
  cases sig with
  | mousemove now x y =>
      by_cases hc : now - s.lastMoveTime > 50
      · refine ⟨?_, ?_, ?_, ?_⟩ <;>
          simp only [handleSignal, hc, if_pos, moveTimes_append, scrollTimes_append]
        · rw [List.pairwise_append]
          refine ⟨by simpa [moveTimes] using h1, by simp [moveTimes], ?_⟩
          intro a ha b hb
          simp [moveTimes] at hb
          subst hb
          have := h2 a (by simpa [moveTimes] using ha)
          omega
        · intro a ha
          rcases List.mem_append.mp ha with hl | hr
          · have := h2 a hl
            omega
          · simp [moveTimes] at hr
            omega
        · simpa [scrollTimes] using h3
        · intro a ha
          rcases List.mem_append.mp ha with hl | hr
          · exact h4 a hl
          · simp [scrollTimes] at hr
      · simpa [handleSignal, hc] using ⟨h1, h2, h3, h4⟩
  | click now x y target =>
      refine ⟨?_, ?_, ?_, ?_⟩ <;>
        simp only [handleSignal, moveTimes_append, scrollTimes_append]
      · simpa [moveTimes] using h1
      · intro a ha
        rcases List.mem_append.mp ha with hl | hr
        · exact h2 a hl
        · simp [moveTimes] at hr
      · simpa [scrollTimes] using h3
      · intro a ha
        rcases List.mem_append.mp ha with hl | hr
        · exact h4 a hl
        · simp [scrollTimes] at hr
  | scroll now sx sy =>
      by_cases hc : now - s.lastScrollTime > 100
      · refine ⟨?_, ?_, ?_, ?_⟩ <;>
          simp only [handleSignal, hc, if_pos, moveTimes_append, scrollTimes_append]
        · simpa [moveTimes] using h1
        · intro a ha
          rcases List.mem_append.mp ha with hl | hr
          · exact h2 a hl
          · simp [moveTimes] at hr
        · rw [List.pairwise_append]
          refine ⟨by simpa [scrollTimes] using h3, by simp [scrollTimes], ?_⟩
          intro a ha b hb
          simp [scrollTimes] at hb
          subst hb
          have := h4 a (by simpa [scrollTimes] using ha)
          omega
        · intro a ha
          rcases List.mem_append.mp ha with hl | hr
          · have := h4 a hl
            omega
          · simp [scrollTimes] at hr
            omega
      · simpa [handleSignal, hc] using ⟨h1, h2, h3, h4⟩

theorem throttleInv_run (sigs : List Signal) :
    ∀ s : ListenerState, ThrottleInv s → ThrottleInv (runSignals s sigs) := by
  induction sigs with
  | nil => intro s h; simpa [runSignals] using h
  | cons sig rest ih =>
      intro s h
      simpa [runSignals] using ih (handleSignal s sig) (throttleInv_step s sig h)

theorem clickCount_runSignals (sigs : List Signal) :
    ∀ s : ListenerState,
      clickCount (runSignals s sigs).captured
        = clickCount s.captured + countClickSignals sigs := by
  induction sigs with
  | nil => intro s; simp [runSignals, countClickSignals]
  | cons sig rest ih =>
      intro s
      have hr : runSignals s (sig :: rest) = runSignals (handleSignal s sig) rest := by
        simp [runSignals]
      rw [hr, ih]
      cases sig with
      | mousemove now x y =>
          by_cases hc : now - s.lastMoveTime > 50 <;>
            simp [handleSignal, hc, clickCount_append, clickCount, countClickSignals]
      | click now x y target =>
          simp [handleSignal, clickCount_append, clickCount, countClickSignals]
          omega
      | scroll now sx sy =>
          by_cases hc : now - s.lastScrollTime > 100 <;>
            simp [handleSignal, hc, clickCount_append, clickCount, countClickSignals]

/-- C5: for every sequence of raw signals with arbitrary timestamps, the
captured `mouseMove` events are pairwise more than 50 ms apart (at most
one per 50 ms window) and the first move signal after the cool-down is
always captured; captured `scroll` events are pairwise more than 100 ms
apart with the same leading-edge rule; and every click signal is captured,
exactly one event per click. -/
theorem throttling_policy :
    ∀ (sigs : List Signal) (s : ListenerState) (now x y sx sy : Int) (target : String),
    (moveTimes (runSignals initListeners sigs).captured).Pairwise (fun a b => 50 < b - a)
    ∧ (scrollTimes (runSignals initListeners sigs).captured).Pairwise (fun a b => 100 < b - a)
    ∧ clickCount (runSignals initListeners sigs).captured = countClickSignals sigs
    ∧ (50 < now - s.lastMoveTime →
        handleSignal s (.mousemove now x y)
          = { s with
              captured := s.captured ++ [⟨"mouseMove", .mouseMove x y, now⟩]
              lastMoveTime := now })
    ∧ (100 < now - s.lastScrollTime →
        handleSignal s (.scroll now sx sy)
          = { s with
              captured := s.captured ++ [⟨"scroll", .scroll sx sy, now⟩]
              lastScrollTime := now })
    ∧ handleSignal s (.click now x y target)
        = { s with captured := s.captured ++ [⟨"click", .click x y target, now⟩] } := by
  intro sigs s now x y sx sy target
  have hinv : ThrottleInv (runSignals initListeners sigs) :=
    throttleInv_run sigs initListeners
      (by simp [ThrottleInv, initListeners, moveTimes, scrollTimes])
  refine ⟨hinv.1, hinv.2.2.1, ?_, ?_, ?_, ?_⟩
  · simpa [initListeners, clickCount] using clickCount_runSignals sigs initListeners
  · intro h
    simp [handleSignal, h]
  · intro h
    simp [handleSignal, h]
  · rfl

/-- Witness for C5: a move signal at 100 ms after a last capture at 0 is
captured (leading edge), as is a scroll signal at 150 ms, and a click. -/
theorem throttling_policy_witness :
    (50 : Int) < 100 - 0
    ∧ handleSignal ⟨0, 0, []⟩ (Signal.mousemove 100 1 2)
        = ⟨100, 0, [⟨"mouseMove", .mouseMove 1 2, 100⟩]⟩
    ∧ (100 : Int) < 150 - 0
    ∧ handleSignal ⟨0, 0, []⟩ (Signal.scroll 150 3 4)
        = ⟨0, 150, [⟨"scroll", .scroll 3 4, 150⟩]⟩
    ∧ handleSignal ⟨0, 0, []⟩ (Signal.click 7 1 2 "button")
        = ⟨0, 0, [⟨"click", .click 1 2 "button", 7⟩]⟩ := by
  have h1 := throttling_policy [] ⟨0, 0, []⟩ 100 1 2 3 4 "button"
  have h2 := throttling_policy [] ⟨0, 0, []⟩ 150 1 2 3 4 "button"
  have h3 := throttling_policy [] ⟨0, 0, []⟩ 7 1 2 3 4 "button"
  exact ⟨by decide, h1.2.2.2.1 (by decide), by decide,
    h2.2.2.2.2.1 (by decide), h3.2.2.2.2.2⟩

/-! ## Post-stop behaviour -/

theorem runPost_no_flush (steps : List PostStep) :
    ∀ s : SDKState, s.sendIntervalActive = false →
    (runPost s steps).events = s.events ++ capturedOf steps
    ∧ (runPost s steps).sendIntervalActive = false
    ∧ (runPost s steps).isRunning = s.isRunning := by
  induction steps with
  | nil =>
      intro s h
      exact ⟨by simp [runPost, capturedOf], by simpa [runPost] using h, by simp [runPost]⟩
  | cons st rest ih =>
      intro s h
      cases st with
      | capture t d n =>
          have hnext := ih (captureEvent s t d n) (by simpa [captureEvent] using h)
          refine ⟨?_, ?_, ?_⟩ <;>
            simp only [runPost, postStep, capturedOf]
          · rw [hnext.1]
            simp [captureEvent]
          · exact hnext.2.1
          · exact hnext.2.2
      | intervalTick during outcome =>
          have hstep : postStep s (.intervalTick during outcome) = s := by
            simp [postStep, h]
          have hnext := ih s h
          refine ⟨?_, ?_, ?_⟩ <;>
            simp only [runPost, hstep, capturedOf]
          · exact hnext.1
          · exact hnext.2.1
          · exact hnext.2.2

/-- C10: after `stop`, capture stays active — `captureEvent` never
consults the running flag, so capture callbacks still append events —
while the cancelled interval means no flush ever runs again: over any
sequence of post-stop steps the queue only grows, accumulating exactly
the captured events, without bound. -/
theorem capture_active_after_stop :
    ∀ (s : SDKState) (steps : List PostStep) (t : String) (d : Payload) (n : Int) (b : Bool),
    (runPost (stop s) steps).events = s.events ++ capturedOf steps
    ∧ (runPost (stop s) steps).isRunning = false
    ∧ (runPost (stop s) steps).sendIntervalActive = false
    ∧ (runPost (stop s) steps).events.length
        = s.events.length + (capturedOf steps).length
    ∧ (captureEvent { s with isRunning := b } t d n).events = s.events ++ [⟨t, d, n⟩] := by
  intro s steps t d n b
  have h := runPost_no_flush steps (stop s) rfl
  refine ⟨h.1, by rw [h.2.2]; rfl, h.2.1, by rw [h.1]; simp [stop], rfl⟩

end ReplaySDK
